import Mathlib

/-!
Verification of `puresec_cli/actions/generate_roles/frameworks/serverless.py`
(`ServerlessFramework`): a shallow embedding of the manifest reconciliation
algorithm (`result`), the packaging cache (`_package`), the resolved-state
cache (`_serverless_config`) and the function-name resolver
(`get_function_name`), together with theorems about them.

Parsed YAML/JSON documents are modelled by the inductive type `Val`
(Python values as produced by `json.load` / `yaml.load`); Python dictionaries
become ordered association lists with unique-key update semantics.  Python
exceptions (`KeyError`, `AttributeError`, `TypeError`, `SystemExit`) become
an explicit `Except` error type.  Side effects (file writes, prompts,
subprocess invocations) become explicit event traces.
-/

set_option autoImplicit false

namespace Puresec

/-- A Python value as produced by parsing JSON/YAML: `None`, booleans,
integers, strings, lists and (ordered) dictionaries with string keys. -/
inductive Val where
  | vnull
  | vbool (b : Bool)
  | vint (n : Int)
  | vstr (s : String)
  | vlist (xs : List Val)
  | vobj (kvs : List (String × Val))

/-- `d[k]` lookup on an association list: the value at the first matching
key (Python dicts have unique keys, kept unique by `dset`). -/
def dget : List (String × Val) → String → Option Val
  | [], _ => none
  | (k, v) :: kvs, key => if k == key then some v else dget kvs key

/-- `d[k] = v` on an association list: replace in place if the key is
present (preserving position, like Python dicts), else append. -/
def dset : List (String × Val) → String → Val → List (String × Val)
  | [], key, val => [(key, val)]
  | (k, v) :: kvs, key, val =>
    if k == key then (k, val) :: kvs else (k, v) :: dset kvs key val

/-- `del d[k]` on an association list. -/
def ddel : List (String × Val) → String → List (String × Val)
  | [], _ => []
  | (k, v) :: kvs, key => if k == key then ddel kvs key else (k, v) :: ddel kvs key

/-- `k in d` on an association list. -/
def dmem (kvs : List (String × Val)) (key : String) : Bool :=
  (dget kvs key).isSome

/-- Python truthiness (`bool(v)`) of a parsed value: `None`, `False`, `0`,
`""`, `[]` and `{}` are falsy. -/
def pyTruthy : Val → Bool
  | .vnull => false
  | .vbool b => b
  | .vint n => n != 0
  | .vstr s => s != ""
  | .vlist xs => !xs.isEmpty
  | .vobj kvs => !kvs.isEmpty

/-- The single-quote character used by Python `repr` of strings. -/
def sq : String := String.singleton (Char.ofNat 39)

mutual

/-- Python `repr` of a parsed value (as used by `str` on containers):
`None`/`True`/`False`, decimal integers, single-quoted strings (escaping
inside strings is not needed for the values in this development), and
`\x7b...\x7d` / `[...]` forms for dicts and lists. -/
def pyRepr : Val → String
  | .vnull => "None"
  | .vbool true => "True"
  | .vbool false => "False"
  | .vint n => toString n
  | .vstr s => sq ++ s ++ sq
  | .vlist xs => "[" ++ String.intercalate ", " (pyReprList xs) ++ "]"
  | .vobj kvs => "\x7b" ++ String.intercalate ", " (pyReprObj kvs) ++ "\x7d"

/-- `pyRepr` mapped over a list of values. -/
def pyReprList : List Val → List String
  | [] => []
  | x :: xs => pyRepr x :: pyReprList xs

/-- `repr(key): repr(value)` items of a dict. -/
def pyReprObj : List (String × Val) → List String
  | [] => []
  | (k, v) :: kvs => (sq ++ k ++ sq ++ ": " ++ pyRepr v) :: pyReprObj kvs

end

/-- Python `str` of a parsed value: the string itself for strings,
`repr`-like rendering otherwise (as in `str(resource_config.get(...))`). -/
def pyStr : Val → String
  | .vstr s => s
  | v => pyRepr v

/-- Whether the character list `s` starts with `pat`. -/
def listStartsWith : List Char → List Char → Bool
  | [], _ => true
  | _ :: _, [] => false
  | p :: ps, c :: cs => p == c && listStartsWith ps cs

/-- Whether `pat` occurs as a contiguous subsequence of `s`. -/
def listContainsSub (pat : List Char) : List Char → Bool
  | [] => pat.isEmpty
  | c :: cs => listStartsWith pat (c :: cs) || listContainsSub pat cs

/-- Python `pat in s` on strings: substring containment. -/
def strContains (s pat : String) : Bool :=
  listContainsSub pat.data s.data

/-- Modelled from the spec: `capitalize` from `puresec_cli.utils` is not part
of the given source; per the spec the role resource name is "a fixed prefix +
capitalized function name + fixed suffix", so `capitalize` upper-cases the
first character of the name. -/
def capitalize (s : String) : String :=
  match s.data with
  | [] => ""
  | c :: cs => String.mk (c.toUpper :: cs)

/-- `"puresec{}Role".format(capitalize(name))` — the synthesized role
resource name for a function. -/
def roleName (name : String) : String :=
  "puresec" ++ capitalize name ++ "Role"

/-- `"${self:custom.puresec_roles.PureSec{}Role}".format(capitalize(name))` —
the cross-file reference stored as the new resource entry. -/
def roleRef (name : String) : String :=
  "$\x7bself:custom.puresec_roles.PureSec" ++ capitalize name ++ "Role\x7d"

/-- The value assigned to `custom.puresec_roles`. -/
def puresecRolesRef : String := "$\x7bfile(puresec-roles.yml)\x7d"

/-- Python exceptions that the embedded code can raise. -/
inductive PyErr where
  | systemExit (code : Int)
  | keyError (key : String)
  | typeError
  | attributeError
deriving DecidableEq

/-- `v[k]` subscription: `KeyError` on a dict without the key, `TypeError`
when `v` is not a dict (strings/lists are not subscriptable by `str`). -/
def Val.subscript (v : Val) (k : String) : Except PyErr Val :=
  match v with
  | .vobj kvs =>
    match dget kvs k with
    | some x => .ok x
    | none => .error (.keyError k)
  | _ => .error .typeError

/-- `v.get(k, d)`: only dicts have `.get`; anything else raises
`AttributeError`. -/
def Val.getD (v : Val) (k : String) (d : Val) : Except PyErr Val :=
  match v with
  | .vobj kvs => .ok ((dget kvs k).getD d)
  | _ => .error .attributeError

/-- `v[k] = x` item assignment: `TypeError` unless `v` is a dict. -/
def Val.setItem (v : Val) (k : String) (x : Val) : Except PyErr Val :=
  match v with
  | .vobj kvs => .ok (.vobj (dset kvs k x))
  | _ => .error .typeError

/-- `del v[k]`: `KeyError` when absent, `TypeError` unless `v` is a dict. -/
def Val.delItem (v : Val) (k : String) : Except PyErr Val :=
  match v with
  | .vobj kvs =>
    if dmem kvs k then .ok (.vobj (ddel kvs k)) else .error (.keyError k)
  | _ => .error .typeError

/-- `v.items()`: only dicts have `.items`. -/
def Val.items (v : Val) : Except PyErr (List (String × Val)) :=
  match v with
  | .vobj kvs => .ok kvs
  | _ => .error .attributeError

/-- `v.setdefault(k, d)`: returns the updated dict and the value at `k`
(existing value if present, else `d` after appending it); `AttributeError`
unless `v` is a dict. -/
def Val.setdefault (v : Val) (k : String) (d : Val) : Except PyErr (Val × Val) :=
  match v with
  | .vobj kvs =>
    match dget kvs k with
    | some x => .ok (.vobj kvs, x)
    | none => .ok (.vobj (kvs ++ [(k, d)]), d)
  | _ => .error .attributeError

/-- `k in v` for string `k`: key membership for dicts, element equality for
lists/tuples, substring containment for strings. -/
def pyIn (k : String) (v : Val) : Except PyErr Bool :=
  match v with
  | .vobj kvs => .ok (dmem kvs k)
  | .vlist xs => .ok (xs.any fun x => match x with | .vstr s => s == k | _ => false)
  | .vstr s => .ok (strContains s k)
  | _ => .error .typeError

/-- Read a nested path of dict keys. -/
def getPath : Val → List String → Option Val
  | v, [] => some v
  | v, k :: ks =>
    match v with
    | .vobj kvs =>
      match dget kvs k with
      | some x => getPath x ks
      | none => none
    | _ => none

/-- Top-level key membership of a config document. -/
def topMem (v : Val) (k : String) : Bool :=
  match v with
  | .vobj kvs => dmem kvs k
  | _ => false

/-- The resource block `config["resources"]["Resources"]` as an association
list, when that path exists and holds a dict. -/
def resourcesList (config : Val) : Option (List (String × Val)) :=
  match getPath config ["resources", "Resources"] with
  | some (.vobj rr) => some rr
  | _ => none

/-! ## `ServerlessFramework.result` — manifest reconciliation

The permissions mapping enters only through its keys (`permissions.keys()`),
modelled as `List String`; `provider.roles` is dumped verbatim to the roles
file and never read back, so the roles-file write is modelled as an event.
`new_resources` is an alias of `config["resources"]["Resources"]`
(established by the two `setdefault` calls and never re-seated), so every
read/write through the alias is modelled as a read/write at that path. -/

/-- Observable side effects of `result`, in program order: writing the
`puresec-roles.yml` file, reading the manifest, asking an `input_query`
question (format string and arguments), writing the mutated manifest. -/
inductive Event where
  | wroteRolesFile
  | readManifest
  | prompted (fmt : String) (args : List String)
  | wroteManifest (config : Val)

/-- `"Roles file already exists, overwrite?"` -/
def qOverwrite : String := "Roles file already exists, overwrite?"

/-- `"Reference functions to new roles?"` -/
def qReference : String := "Reference functions to new roles?"

/-- `"Remove old roles?"` -/
def qRemove : String := "Remove old roles?"

/-- `"These are the roles that would be removed:\n{}\nAre you sure?"` -/
def qSure : String := "These are the roles that would be removed:\n\x7b\x7d\nAre you sure?"

/-- `"\n".join("- {}".format(role) for role in old_roles)` -/
def joinRoles (roles : List String) : String :=
  String.intercalate "\n" (roles.map fun r => "- " ++ r)

/-- The per-resource part of the legacy-role test that does not depend on
the current resource block:
`resource_config['Type'] == 'AWS::IAM::Role'` and
`'lambda.amazonaws.com' in str(resource_config.get('Properties', {}).get('AssumeRolePolicyDocument'))`. -/
def qualifiesStatic (rc : Val) : Except PyErr Bool := do
  let t ← rc.subscript "Type"
  match t with
  | .vstr s =>
    if s == "AWS::IAM::Role" then do
      let props ← rc.getD "Properties" (.vobj [])
      let doc ← props.getD "AssumeRolePolicyDocument" .vnull
      pure (strContains (pyStr doc) "lambda.amazonaws.com")
    else pure false
  | _ => pure false

/-- The candidate-collection loop over `old_resources.items()`: collects
`resource_config.get('Properties', {}).get('RoleName', resource_id)`
(stringified at display time) for every qualifying resource;
`rr` is the (unmutated during this loop) current resource block. -/
def collectLoop (newRoles : List String) (rr : List (String × Val)) :
    List (String × Val) → Except PyErr (List String)
  | [] => .ok []
  | (rid, rc) :: rest => do
    let q ← qualifiesStatic rc
    if q && !newRoles.contains rid && dmem rr rid then do
      let props ← rc.getD "Properties" (.vobj [])
      let dn ← props.getD "RoleName" (.vstr rid)
      let tail ← collectLoop newRoles rr rest
      pure (pyStr dn :: tail)
    else collectLoop newRoles rr rest

/-- The deletion loop over `old_resources.items()`: deletes from the live
resource block every resource whose `Type`/trust-policy test passes, whose
id is not a new role, and whose id is (still) present in the block. -/
def removalLoop (newRoles : List String) :
    List (String × Val) → List (String × Val) → Except PyErr (List (String × Val))
  | [], rr => .ok rr
  | (rid, rc) :: rest, rr => do
    let q ← qualifiesStatic rc
    let rr1 := if q && !newRoles.contains rid && dmem rr rid then ddel rr rid else rr
    removalLoop newRoles rest rr1

/-- Read the `new_resources` alias (`config["resources"]["Resources"]`) as an
association list; in `result`'s flow it is always a dict at that path. -/
def configResourcesList (config : Val) : Except PyErr (List (String × Val)) := do
  let res ← config.subscript "resources"
  let rr ← res.subscript "Resources"
  rr.items

/-- `new_resources[k] = v` through the alias. -/
def setResourceEntry (config : Val) (k : String) (v : Val) : Except PyErr Val := do
  let res ← config.subscript "resources"
  let rr ← res.subscript "Resources"
  let rr1 ← rr.setItem k v
  let res1 ← res.setItem "Resources" rr1
  config.setItem "resources" res1

/-- `config.setdefault('resources', {}).setdefault('Resources', {})`
(the value of the alias itself is recovered by `configResourcesList`). -/
def ensureResources (config : Val) : Except PyErr Val := do
  let (c1, res) ← config.setdefault "resources" (.vobj [])
  let (res1, _) ← res.setdefault "Resources" (.vobj [])
  c1.setItem "resources" res1

/-- `config.setdefault('custom', {})['puresec_roles'] = "${file(puresec-roles.yml)}"` -/
def setCustom (config : Val) : Except PyErr Val := do
  let (c1, cu) ← config.setdefault "custom" (.vobj [])
  let cu1 ← cu.setItem "puresec_roles" (.vstr puresecRolesRef)
  c1.setItem "custom" cu1

/-- The role-adding loop: `new_resources[role] = cross-file reference` for
every function name with a computed policy. -/
def addRoles : List String → Val → Except PyErr Val
  | [], config => .ok config
  | n :: rest, config => do
    let c1 ← setResourceEntry config (roleName n) (.vstr (roleRef n))
    addRoles rest c1

/-- Lines 49–57 of `result`: ensure the resource block, register the roles
file under `custom.puresec_roles`, add one resource entry per function. -/
def stageAdd (permissions : List String) (config : Val) : Except PyErr Val := do
  let c1 ← ensureResources config
  let c2 ← setCustom c1
  addRoles permissions c2

/-- The rewiring loop: `config['functions'][name]['role'] = roleName name`
for every function name with a computed policy. -/
def setFunctionRoles : List String → Val → Except PyErr Val
  | [], config => .ok config
  | n :: rest, config => do
    let fs ← config.subscript "functions"
    let fc ← fs.subscript n
    let fc1 ← fc.setItem "role" (.vstr (roleName n))
    let fs1 ← fs.setItem n fc1
    let c1 ← config.setItem "functions" fs1
    setFunctionRoles rest c1

/-- `if 'iamRoleStatements' in config.get('provider', ()): del config['provider']['iamRoleStatements']`
(the default of `.get` is an empty tuple, modelled as an empty list). -/
def delIamRoleStatements (config : Val) : Except PyErr Val := do
  let provider ← config.getD "provider" (.vlist [])
  let hasIam ← pyIn "iamRoleStatements" provider
  if hasIam then do
    let p ← config.subscript "provider"
    let p1 ← p.delItem "iamRoleStatements"
    config.setItem "provider" p1
  else pure config

/-- The deletion loop acting on `config` through the `new_resources` alias. -/
def removalLoopCfg (newRoles : List String) (olds : List (String × Val))
    (config : Val) : Except PyErr Val := do
  let rr ← configResourcesList config
  let rr1 ← removalLoop newRoles olds rr
  let res ← config.subscript "resources"
  let res1 ← res.setItem "Resources" (.vobj rr1)
  config.setItem "resources" res1

/-- The set of synthesized role names (`new_roles`), one per function key. -/
def newRolesOf (permissions : List String) : List String :=
  permissions.map roleName

/-- Lines 64–89 of `result` (the body of the `Remove old roles?` branch):
read the pre-packaging resource block from the resolved state, list the
default service-level role and every qualifying legacy resource, and — if
there are candidates and the combined confirmation is given — delete the
blanket `iamRoleStatements` declaration and every qualifying resource. -/
def stageRemove (sls : Val) (newRoles : List String) (config : Val)
    (yes ansSure : Bool) : List Event × Except PyErr Val :=
  match (do
      let service ← sls.subscript "service"
      let res ← service.getD "resources" (.vobj [])
      let oldRes ← res.getD "Resources" (.vobj [])
      oldRes.items) with
  | .error e => ([], .error e)
  | .ok olds =>
    match (do
        let provider ← config.getD "provider" (.vlist [])
        pyIn "iamRoleStatements" provider) with
    | .error e => ([], .error e)
    | .ok hasIam =>
      match configResourcesList config with
      | .error e => ([], .error e)
      | .ok rr =>
        match collectLoop newRoles rr olds with
        | .error e => ([], .error e)
        | .ok cands =>
          if ((if hasIam then ["default service-level role"] else []) ++ cands).isEmpty then
            ([], .ok config)
          else if yes || ansSure then
            match (do
                let c1 ← delIamRoleStatements config
                removalLoopCfg newRoles olds c1) with
            | .error e =>
              ((if yes then [] else [.prompted qSure [joinRoles
                ((if hasIam then ["default service-level role"] else []) ++ cands)]]),
               .error e)
            | .ok c2 =>
              ((if yes then [] else [.prompted qSure [joinRoles
                ((if hasIam then ["default service-level role"] else []) ++ cands)]]),
               .ok c2)
          else
            ((if yes then [] else [.prompted qSure [joinRoles
              ((if hasIam then ["default service-level role"] else []) ++ cands)]]),
             .ok config)

/-- Lines 91–92: `if not new_resources and 'resources' in config: del config['resources']`
(`new_resources` read back through its alias path). -/
def cleanup (config : Val) : Except PyErr Val := do
  let res ← config.subscript "resources"
  let rr ← res.subscript "Resources"
  if !pyTruthy rr && topMem config "resources" then
    config.delItem "resources"
  else pure config

/-- The whole mutation pipeline of `result` after the manifest has been
loaded: role registration, optional rewiring, optional legacy-role removal,
empty-resources cleanup.  Returns the prompts asked along the way and the
final manifest to be written back (or the exception that aborted it). -/
def reconcile (permissions : List String) (sls : Val) (config : Val)
    (yes ansReference ansRemove ansSure : Bool) : List Event × Except PyErr Val :=
  match stageAdd permissions config with
  | .error e => ([], .error e)
  | .ok c1 =>
    match (if yes || ansReference then setFunctionRoles permissions c1 else .ok c1) with
    | .error e => ((if yes then [] else [.prompted qReference []]), .error e)
    | .ok c2 =>
      match (if yes || ansRemove then stageRemove sls (newRolesOf permissions) c2 yes ansSure
             else ([], .ok c2)) with
      | (remEv2, .error e) =>
        ((if yes then [] else [.prompted qReference []]) ++
         (if yes then [] else [.prompted qRemove []]) ++ remEv2, .error e)
      | (remEv2, .ok c3) =>
        match cleanup c3 with
        | .error e =>
          ((if yes then [] else [.prompted qReference []]) ++
           (if yes then [] else [.prompted qRemove []]) ++ remEv2, .error e)
        | .ok w =>
          ((if yes then [] else [.prompted qReference []]) ++
           (if yes then [] else [.prompted qRemove []]) ++ remEv2, .ok w)

/-- `ServerlessFramework.result`: no-op on an empty permissions mapping;
otherwise the roles-file overwrite gate, the roles-file dump, the manifest
load, the `reconcile` pipeline and the manifest write-back.  `sls` is the
cached `self._serverless_config` document, `config` the parsed manifest,
`rolesFileExists` the `os.path.exists(result_path)` test, and the `ans*`
booleans the answers the interactive `input_query` calls would return. -/
def result (permissions : List String) (sls : Val) (config : Val)
    (yes rolesFileExists ansOverwrite ansReference ansRemove ansSure : Bool) :
    List Event × Except PyErr Unit :=
  if permissions.isEmpty then ([], .ok ())
  else
    if !yes && rolesFileExists && !ansOverwrite then
      ((if !yes && rolesFileExists then [.prompted qOverwrite []] else []),
       .error (.systemExit 1))
    else
      match reconcile permissions sls config yes ansReference ansRemove ansSure with
      | (ev, .error e) =>
        ((if !yes && rolesFileExists then [.prompted qOverwrite []] else []) ++
         [.wroteRolesFile, .readManifest] ++ ev, .error e)
      | (ev, .ok w) =>
        ((if !yes && rolesFileExists then [.prompted qOverwrite []] else []) ++
         [.wroteRolesFile, .readManifest] ++ ev ++ [.wroteManifest w], .ok ())

/-! ## `_package`, `_serverless_config` and the resolved-state accessors

The adapter instance's mutable attributes become an explicit state record;
the filesystem and the external toolchain become an environment record; the
`json.load` primitive (out of scope per the spec) becomes a parser oracle
passed as a function.  Reading the artifact with `errors='replace'` means a
present file always decodes to *some* string, so the environment exposes the
artifact as `Option String` with no decode-failure case. -/

/-- The adapter instance's lazily created attributes: `_serverless_package`
(the scratch `TemporaryDirectory`, identified by a number) and
`_serverless_config_cache`. -/
structure AdapterState where
  serverlessPackage : Option Nat
  serverlessConfigCache : Option Val

/-- The world `_package`/`_serverless_config` interact with: whether
`<path>/serverless.yml` exists, whether `Popen` finds the executable, the
packaging subprocess's exit code and combined output, the name of a freshly
created scratch directory, and the decoded contents of
`serverless-state.json` inside the scratch directory (`none` if absent). -/
structure PackageEnv where
  configExists : Bool
  spawnOk : Bool
  exitCode : Int
  output : String
  freshDir : Nat
  stateArtifact : Option String

/-- Observable side effects of the packaging/state layer, in program order. -/
inductive Effect where
  | checkedConfigExists (p : String)
  | createdTempDir (d : Nat)
  | invokedToolchain (d : Nat)
  | openedStateArtifact (d : Nat)
  | eprinted (fmt : String) (args : List String)

/-- `ServerlessFramework._package`: a no-op when `_serverless_package` is
already set; otherwise checks the manifest exists (fatal `SystemExit -1`
naming the path if not), creates the scratch directory, runs
`<executable> package --package <scratch>` and checks its exit status.
Note the scratch-directory attribute is assigned *before* the subprocess
runs, so even a failed run leaves it set. -/
def package (path : String) (env : PackageEnv) (st : AdapterState) :
    AdapterState × List Effect × Except PyErr Unit :=
  match st.serverlessPackage with
  | some _ => (st, [], .ok ())
  | none =>
    let cfgPath := path ++ "/serverless.yml"
    if !env.configExists then
      (st, [.checkedConfigExists cfgPath,
            .eprinted "error: could not find serverless config in: \x7b\x7d" [cfgPath]],
       .error (.systemExit (-1)))
    else
      let st1 : AdapterState := { st with serverlessPackage := some env.freshDir }
      if !env.spawnOk then
        (st1, [.checkedConfigExists cfgPath, .createdTempDir env.freshDir,
               .eprinted "error: serverless framework not installed, try using --framework-path" []],
         .error (.systemExit (-1)))
      else if env.exitCode != 0 then
        (st1, [.checkedConfigExists cfgPath, .createdTempDir env.freshDir,
               .invokedToolchain env.freshDir,
               .eprinted "error: serverless package failed:\n\x7b\x7d" [env.output]],
         .error (.systemExit env.exitCode))
      else
        (st1, [.checkedConfigExists cfgPath, .createdTempDir env.freshDir,
               .invokedToolchain env.freshDir], .ok ())

/-- `ServerlessFramework._serverless_config` (property): returns the cache
when set; otherwise packages, opens `serverless-state.json` (fatal if the
file is absent), parses it with the JSON oracle (fatal, surfacing the
parser's error, if invalid) and caches the parsed document. -/
def serverlessConfig (path : String) (parseJson : String → Except String Val)
    (env : PackageEnv) (st : AdapterState) :
    AdapterState × List Effect × Except PyErr Val :=
  match st.serverlessConfigCache with
  | some v => (st, [], .ok v)
  | none =>
    match package path env st with
    | (st1, ev, .error e) => (st1, ev, .error e)
    | (st1, ev, .ok ()) =>
      let d := st1.serverlessPackage.getD 0
      match env.stateArtifact with
      | none =>
        (st1, ev ++ [.openedStateArtifact d,
              .eprinted "error: serverless package did not create serverless-state.json" []],
         .error (.systemExit (-1)))
      | some contents =>
        match parseJson contents with
        | .error msg =>
          (st1, ev ++ [.openedStateArtifact d,
                .eprinted "error: invalid serverless-state.json:\n\x7b\x7d" [msg]],
           .error (.systemExit (-1)))
        | .ok v =>
          ({ st1 with serverlessConfigCache := some v },
           ev ++ [.openedStateArtifact d], .ok v)

/-- `self._serverless_config['service']['provider']['name']` as a pure
function of the resolved-state document. -/
def providerNameOf (v : Val) : Except PyErr Val := do
  let s ← v.subscript "service"
  let p ← s.subscript "provider"
  p.subscript "name"

/-- `self._serverless_config['service']['provider'].get('region')`. -/
def defaultRegionOf (v : Val) : Except PyErr Val := do
  let s ← v.subscript "service"
  let p ← s.subscript "provider"
  p.getD "region" .vnull

/-- `self._serverless_config['service']['provider'].get('profile')`. -/
def defaultProfileOf (v : Val) : Except PyErr Val := do
  let s ← v.subscript "service"
  let p ← s.subscript "provider"
  p.getD "profile" .vnull

/-- `ServerlessFramework.get_provider_name`. -/
def getProviderName (path : String) (parseJson : String → Except String Val)
    (env : PackageEnv) (st : AdapterState) :
    AdapterState × List Effect × Except PyErr Val :=
  match serverlessConfig path parseJson env st with
  | (st1, ev, .error e) => (st1, ev, .error e)
  | (st1, ev, .ok v) => (st1, ev, providerNameOf v)

/-- `ServerlessFramework.get_default_region`. -/
def getDefaultRegion (path : String) (parseJson : String → Except String Val)
    (env : PackageEnv) (st : AdapterState) :
    AdapterState × List Effect × Except PyErr Val :=
  match serverlessConfig path parseJson env st with
  | (st1, ev, .error e) => (st1, ev, .error e)
  | (st1, ev, .ok v) => (st1, ev, defaultRegionOf v)

/-- `ServerlessFramework.get_default_profile`. -/
def getDefaultProfile (path : String) (parseJson : String → Except String Val)
    (env : PackageEnv) (st : AdapterState) :
    AdapterState × List Effect × Except PyErr Val :=
  match serverlessConfig path parseJson env st with
  | (st1, ev, .error e) => (st1, ev, .error e)
  | (st1, ev, .ok v) => (st1, ev, defaultProfileOf v)

/-- The linear scan of `get_function_name`: the first entry of the function
table whose `name` attribute equals the provider-assigned name (reading the
`name` attribute of a scanned entry raises `KeyError` if it is missing). -/
def scanFunctions (pfn : String) :
    List (String × Val) → Except PyErr (Option String)
  | [] => .ok none
  | (name, fc) :: rest => do
    let n ← fc.subscript "name"
    if (match n with | .vstr s => s == pfn | _ => false) then pure (some name)
    else scanFunctions pfn rest

/-- `ServerlessFramework.get_function_name`: scans
`self._serverless_config['service'].get('functions', {})` for an entry whose
`name` equals the provider function name; fatal `SystemExit -1` naming the
provider function name when no entry matches. -/
def getFunctionName (path : String) (parseJson : String → Except String Val)
    (env : PackageEnv) (st : AdapterState) (pfn : String) :
    AdapterState × List Effect × Except PyErr String :=
  match serverlessConfig path parseJson env st with
  | (st1, ev, .error e) => (st1, ev, .error e)
  | (st1, ev, .ok v) =>
    match (do
        let s ← v.subscript "service"
        let fs ← s.getD "functions" (.vobj [])
        fs.items) with
    | .error e => (st1, ev, .error e)
    | .ok items =>
      match scanFunctions pfn items with
      | .error e => (st1, ev, .error e)
      | .ok (some name) => (st1, ev, .ok name)
      | .ok none =>
        (st1, ev ++ [.eprinted
            ("error: could not find Serverless name for function: " ++ sq ++ "\x7b\x7d" ++ sq) [pfn]],
         .error (.systemExit (-1)))

/-- Whether an event is an interactive `input_query` prompt. -/
def isPrompt : Event → Bool
  | .prompted _ _ => true
  | _ => false

/-- A resolved-state document whose function table maps each declared
function name to a config carrying its provider-assigned `name` attribute:
`{"service": {"functions": {decl: {"name": internal}, ...}}}`. -/
def fnTable (fs : List (String × String)) : Val :=
  .vobj [("service", .vobj [("functions",
    .vobj (fs.map fun p => (p.1, .vobj [("name", .vstr p.2)])))])]

/-! ## Association-list lemmas -/

theorem dget_dset_self (kvs : List (String × Val)) (k : String) (v : Val) :
    dget (dset kvs k v) k = some v := by
  induction kvs with
  | nil => simp [dget, dset]
  | cons kv kvs ih =>
    obtain ⟨k0, v0⟩ := kv
    by_cases h : k0 = k
    · subst h; simp [dget, dset]
    · simp only [dset, beq_iff_eq, if_neg h, dget, if_neg h]
      exact ih

theorem dget_dset_ne (kvs : List (String × Val)) (k k' : String) (v : Val)
    (h : k' ≠ k) : dget (dset kvs k v) k' = dget kvs k' := by
  induction kvs with
  | nil => simp [dget, dset, beq_iff_eq, Ne.symm h]
  | cons kv kvs ih =>
    obtain ⟨k0, v0⟩ := kv
    by_cases h0 : k0 = k
    · subst h0
      simp [dget, dset, beq_iff_eq, Ne.symm h]
    · simp only [dset, beq_iff_eq, if_neg h0, dget]
      by_cases h1 : k0 = k'
      · simp [h1]
      · simp [h1, ih]

theorem dmem_dset (kvs : List (String × Val)) (k k' : String) (v : Val) :
    dmem (dset kvs k v) k' = (k' == k || dmem kvs k') := by
  by_cases h : k' = k
  · subst h; simp [dmem, dget_dset_self]
  · simp [dmem, dget_dset_ne kvs k k' v h, h]

theorem dget_ddel_self (kvs : List (String × Val)) (k : String) :
    dget (ddel kvs k) k = none := by
  induction kvs with
  | nil => simp [dget, ddel]
  | cons kv kvs ih =>
    obtain ⟨k0, v0⟩ := kv
    by_cases h : k0 = k
    · subst h; simp [ddel]; exact ih
    · simp only [ddel, beq_iff_eq, if_neg h, dget, if_neg h]
      exact ih

theorem dget_ddel_ne (kvs : List (String × Val)) (k k' : String)
    (h : k' ≠ k) : dget (ddel kvs k) k' = dget kvs k' := by
  induction kvs with
  | nil => simp [ddel]
  | cons kv kvs ih =>
    obtain ⟨k0, v0⟩ := kv
    by_cases h0 : k0 = k
    · subst h0
      simp only [ddel, beq_iff_eq, if_pos rfl, dget, beq_iff_eq, if_neg (Ne.symm h)]
      exact ih
    · simp only [ddel, beq_iff_eq, if_neg h0, dget]
      by_cases h1 : k0 = k'
      · simp [h1]
      · simp [h1, ih]

theorem dmem_ddel (kvs : List (String × Val)) (k k' : String) :
    dmem (ddel kvs k) k' = (k' != k && dmem kvs k') := by
  by_cases h : k' = k
  · subst h; simp [dmem, dget_ddel_self]
  · simp [dmem, dget_ddel_ne kvs k k' h, h]

/-! ## Inversion helpers for the `Except` embedding -/

theorem bind_ok {α β : Type} (m : Except PyErr α) (f : α → Except PyErr β) (b : β)
    (h : (m >>= f) = .ok b) : ∃ a, m = .ok a ∧ f a = .ok b := by
  cases m with
  | error e => simp [bind, Except.bind] at h
  | ok a => exact ⟨a, rfl, by simpa [bind, Except.bind] using h⟩

theorem subscript_ok (v : Val) (k : String) (x : Val) (h : v.subscript k = .ok x) :
    ∃ kvs, v = .vobj kvs ∧ dget kvs k = some x := by
  cases v with
  | vobj kvs =>
    refine ⟨kvs, rfl, ?_⟩
    cases hd : dget kvs k with
    | none => simp [Val.subscript, hd] at h
    | some y => simp [Val.subscript, hd] at h; rw [h]
  | vnull => simp [Val.subscript] at h
  | vbool b => simp [Val.subscript] at h
  | vint n => simp [Val.subscript] at h
  | vstr s => simp [Val.subscript] at h
  | vlist xs => simp [Val.subscript] at h

theorem setItem_ok (v : Val) (k : String) (x w : Val) (h : v.setItem k x = .ok w) :
    ∃ kvs, v = .vobj kvs ∧ w = .vobj (dset kvs k x) := by
  cases v with
  | vobj kvs =>
    refine ⟨kvs, rfl, ?_⟩
    simp [Val.setItem] at h
    rw [← h]
  | vnull => simp [Val.setItem] at h
  | vbool b => simp [Val.setItem] at h
  | vint n => simp [Val.setItem] at h
  | vstr s => simp [Val.setItem] at h
  | vlist xs => simp [Val.setItem] at h

theorem items_ok (v : Val) (l : List (String × Val)) (h : v.items = .ok l) :
    v = .vobj l := by
  cases v with
  | vobj kvs => simp [Val.items] at h; rw [h]
  | vnull => simp [Val.items] at h
  | vbool b => simp [Val.items] at h
  | vint n => simp [Val.items] at h
  | vstr s => simp [Val.items] at h
  | vlist xs => simp [Val.items] at h

theorem delItem_ok (v : Val) (k : String) (w : Val) (h : v.delItem k = .ok w) :
    ∃ kvs, v = .vobj kvs ∧ w = .vobj (ddel kvs k) := by
  cases v with
  | vobj kvs =>
    refine ⟨kvs, rfl, ?_⟩
    by_cases hd : dmem kvs k
    · simp [Val.delItem, hd] at h
      rw [← h]
    · simp [Val.delItem, hd] at h
  | vnull => simp [Val.delItem] at h
  | vbool b => simp [Val.delItem] at h
  | vint n => simp [Val.delItem] at h
  | vstr s => simp [Val.delItem] at h
  | vlist xs => simp [Val.delItem] at h

/-! ## Claim theorems -/

/-- C1 (counterexample): reconciling the one-function mapping `["hello"]`
against a literally empty manifest, with rewiring accepted, does not yield a
written manifest at all: the rewiring step raises `KeyError 'functions'`
after the roles file is written, and the manifest write-back is never
reached. -/
theorem result_empty_manifest_keyerror :
    result ["hello"] (.vobj [("service", .vobj [])]) (.vobj [])
      false false true true false false
    = ([.wroteRolesFile, .readManifest, .prompted qReference []],
       .error (.keyError "functions")) := rfl

/-- C1 (amended): reconciling the one-function mapping `["hello"]` against a
manifest that declares the function `hello` (with empty configuration) and
nothing else, with rewiring accepted, writes a manifest whose
`resources.Resources.puresecHelloRole` is the cross-file reference
`${self:custom.puresec_roles.PureSecHelloRole}`, whose `custom.puresec_roles`
is `${file(puresec-roles.yml)}`, and whose `functions.hello.role` is
`puresecHelloRole`. -/
theorem result_roundtrip_hello :
    ∃ w, result ["hello"] (.vobj [("service", .vobj [])])
      (.vobj [("functions", .vobj [("hello", .vobj [])])])
      false false true true false false
    = ([.wroteRolesFile, .readManifest, .prompted qReference [], .prompted qRemove [],
        .wroteManifest w], .ok ())
    ∧ getPath w ["resources", "Resources", "puresecHelloRole"]
        = some (.vstr "$\x7bself:custom.puresec_roles.PureSecHelloRole\x7d")
    ∧ getPath w ["custom", "puresec_roles"] = some (.vstr "$\x7bfile(puresec-roles.yml)\x7d")
    ∧ getPath w ["functions", "hello", "role"] = some (.vstr "puresecHelloRole") :=
  ⟨.vobj [("functions", .vobj [("hello", .vobj [("role", .vstr "puresecHelloRole")])]),
          ("resources", .vobj [("Resources",
            .vobj [("puresecHelloRole",
              .vstr "$\x7bself:custom.puresec_roles.PureSecHelloRole\x7d")])]),
          ("custom", .vobj [("puresec_roles", .vstr "$\x7bfile(puresec-roles.yml)\x7d")])],
   rfl, rfl, rfl, rfl⟩

/-- A successful `_package` call always leaves `_serverless_package` set. -/
theorem package_cache_some (path : String) (env : PackageEnv)
    (st st' : AdapterState) (ev : List Effect)
    (h : package path env st = (st', ev, .ok ())) :
    ∃ d, st'.serverlessPackage = some d := by
  cases hs : st.serverlessPackage with
  | some d =>
    refine ⟨d, ?_⟩
    simp [package, hs] at h
    rw [← h.1, hs]
  | none =>
    by_cases hc : env.configExists
    · by_cases hsp : env.spawnOk
      · by_cases he : env.exitCode = 0
        · refine ⟨env.freshDir, ?_⟩
          simp [package, hs, hc, hsp, he] at h
          rw [← h.1]
        · simp [package, hs, hc, hsp, he] at h
      · simp [package, hs, hc, hsp] at h
    · simp [package, hs, hc] at h

/-- C3: once `_package` has completed successfully, every subsequent call on
the same adapter instance — under any environment whatsoever — performs no
effect at all (no filesystem check, no toolchain invocation) and leaves the
state, including the scratch directory, unchanged. -/
theorem package_idempotent (path : String) (env : PackageEnv)
    (st st' : AdapterState) (ev : List Effect)
    (h : package path env st = (st', ev, .ok ())) :
    ∀ env', package path env' st' = (st', [], .ok ()) := by
  intro env'
  obtain ⟨d, hd⟩ := package_cache_some path env st st' ev h
  simp [package, hd]

/-- Witness for C3 at a concrete successful first call. -/
theorem package_idempotent_witness :
    package "p" ⟨false, false, 5, "", 3, none⟩
      ⟨some 7, none⟩ = (⟨some 7, none⟩, [], .ok ()) :=
  package_idempotent "p" ⟨true, true, 0, "out", 7, none⟩ ⟨none, none⟩ _ _ rfl
    ⟨false, false, 5, "", 3, none⟩

/-- C5: with no scratch directory yet and no `serverless.yml` in the project
directory, `_package` exits fatally (`SystemExit -1`) with a diagnostic
naming the expected manifest path, and its effect trace contains no
toolchain invocation. -/
theorem package_missing_config (path : String) (env : PackageEnv)
    (st : AdapterState) (h1 : st.serverlessPackage = none)
    (h2 : env.configExists = false) :
    package path env st =
      (st, [.checkedConfigExists (path ++ "/serverless.yml"),
            .eprinted "error: could not find serverless config in: \x7b\x7d"
              [path ++ "/serverless.yml"]],
       .error (.systemExit (-1))) ∧
    ∀ d, Effect.invokedToolchain d ∉ (package path env st).2.1 := by
  have hmain : package path env st =
      (st, [.checkedConfigExists (path ++ "/serverless.yml"),
            .eprinted "error: could not find serverless config in: \x7b\x7d"
              [path ++ "/serverless.yml"]],
       .error (.systemExit (-1))) := by
    simp [package, h1, h2]
  refine ⟨hmain, ?_⟩
  intro d
  rw [hmain]
  simp

/-- Witness for C5 at a concrete state and environment. -/
theorem package_missing_config_witness :
    package "proj" ⟨false, true, 0, "", 3, none⟩ ⟨none, none⟩ =
      (⟨none, none⟩, [.checkedConfigExists "proj/serverless.yml",
            .eprinted "error: could not find serverless config in: \x7b\x7d"
              ["proj/serverless.yml"]],
       .error (.systemExit (-1))) ∧
    ∀ d, Effect.invokedToolchain d ∉
      (package "proj" ⟨false, true, 0, "", 3, none⟩ ⟨none, none⟩).2.1 :=
  package_missing_config "proj" ⟨false, true, 0, "", 3, none⟩ ⟨none, none⟩ rfl rfl

/-- A successful `_serverless_config` access always leaves the cache set to
the returned document. -/
theorem serverlessConfig_cache_some (path : String)
    (parse : String → Except String Val) (env : PackageEnv)
    (st st' : AdapterState) (ev : List Effect) (v : Val)
    (h : serverlessConfig path parse env st = (st', ev, .ok v)) :
    st'.serverlessConfigCache = some v := by
  cases hc : st.serverlessConfigCache with
  | some w =>
    simp [serverlessConfig, hc] at h
    rw [← h.1, hc, h.2.2]
  | none =>
    rcases hp : package path env st with ⟨st1, ev1, r⟩
    cases r with
    | error e => simp [serverlessConfig, hc, hp] at h
    | ok u =>
      cases u
      cases ha : env.stateArtifact with
      | none => simp [serverlessConfig, hc, hp, ha] at h
      | some s =>
        cases hps : parse s with
        | error msg => simp [serverlessConfig, hc, hp, ha, hps] at h
        | ok w =>
          simp [serverlessConfig, hc, hp, ha, hps] at h
          rw [← h.1]
          simp [h.2.2]

/-- C4: once `_serverless_config` has succeeded, every later access — under
any environment and any parser, in particular after the artifact file has
been mutated on disk — returns the identical cached document with no effects
and no state change, and `get_provider_name` / `get_default_region` /
`get_default_profile` likewise answer purely from the cached document. -/
theorem serverlessConfig_cache_stable (path : String)
    (parse : String → Except String Val) (env : PackageEnv)
    (st st' : AdapterState) (ev : List Effect) (v : Val)
    (h : serverlessConfig path parse env st = (st', ev, .ok v)) :
    ∀ (parseAlt : String → Except String Val) (envAlt : PackageEnv),
      serverlessConfig path parseAlt envAlt st' = (st', [], .ok v) ∧
      getProviderName path parseAlt envAlt st' = (st', [], providerNameOf v) ∧
      getDefaultRegion path parseAlt envAlt st' = (st', [], defaultRegionOf v) ∧
      getDefaultProfile path parseAlt envAlt st' = (st', [], defaultProfileOf v) := by
  intro parseAlt envAlt
  have hcache := serverlessConfig_cache_some path parse env st st' ev v h
  have h1 : serverlessConfig path parseAlt envAlt st' = (st', [], .ok v) := by
    simp [serverlessConfig, hcache]
  exact ⟨h1, by simp [getProviderName, h1], by simp [getDefaultRegion, h1],
    by simp [getDefaultProfile, h1]⟩

/-- Witness for C4: a concrete first success, then a re-read under a
different environment (artifact mutated to garbage, parser failing) still
returns the cached document. -/
theorem serverlessConfig_cache_stable_witness :
    serverlessConfig "proj" (fun _ => .error "mutated")
        ⟨true, true, 0, "", 9, some "garbage"⟩
        ⟨some 7, some (.vobj [("service", .vobj [("provider",
          .vobj [("name", .vstr "aws"), ("region", .vstr "us-east-1")])])])⟩
      = (⟨some 7, some (.vobj [("service", .vobj [("provider",
          .vobj [("name", .vstr "aws"), ("region", .vstr "us-east-1")])])])⟩, [],
         .ok (.vobj [("service", .vobj [("provider",
          .vobj [("name", .vstr "aws"), ("region", .vstr "us-east-1")])])])) ∧
    getProviderName "proj" (fun _ => .error "mutated")
        ⟨true, true, 0, "", 9, some "garbage"⟩
        ⟨some 7, some (.vobj [("service", .vobj [("provider",
          .vobj [("name", .vstr "aws"), ("region", .vstr "us-east-1")])])])⟩
      = (⟨some 7, some (.vobj [("service", .vobj [("provider",
          .vobj [("name", .vstr "aws"), ("region", .vstr "us-east-1")])])])⟩, [],
         providerNameOf (.vobj [("service", .vobj [("provider",
          .vobj [("name", .vstr "aws"), ("region", .vstr "us-east-1")])])])) ∧
    getDefaultRegion "proj" (fun _ => .error "mutated")
        ⟨true, true, 0, "", 9, some "garbage"⟩
        ⟨some 7, some (.vobj [("service", .vobj [("provider",
          .vobj [("name", .vstr "aws"), ("region", .vstr "us-east-1")])])])⟩
      = (⟨some 7, some (.vobj [("service", .vobj [("provider",
          .vobj [("name", .vstr "aws"), ("region", .vstr "us-east-1")])])])⟩, [],
         defaultRegionOf (.vobj [("service", .vobj [("provider",
          .vobj [("name", .vstr "aws"), ("region", .vstr "us-east-1")])])])) ∧
    getDefaultProfile "proj" (fun _ => .error "mutated")
        ⟨true, true, 0, "", 9, some "garbage"⟩
        ⟨some 7, some (.vobj [("service", .vobj [("provider",
          .vobj [("name", .vstr "aws"), ("region", .vstr "us-east-1")])])])⟩
      = (⟨some 7, some (.vobj [("service", .vobj [("provider",
          .vobj [("name", .vstr "aws"), ("region", .vstr "us-east-1")])])])⟩, [],
         defaultProfileOf (.vobj [("service", .vobj [("provider",
          .vobj [("name", .vstr "aws"), ("region", .vstr "us-east-1")])])])) :=
  serverlessConfig_cache_stable "proj"
    (fun s => if s == "ok" then .ok (.vobj [("service", .vobj [("provider",
      .vobj [("name", .vstr "aws"), ("region", .vstr "us-east-1")])])]) else .error "bad")
    ⟨true, true, 0, "", 7, some "ok"⟩ ⟨none, none⟩ _ _ _ rfl
    (fun _ => .error "mutated") ⟨true, true, 0, "", 9, some "garbage"⟩

/-- C6: after a successful packaging step with no cached document yet,
`_serverless_config` (a) exits fatally with the missing-artifact diagnostic
when `serverless-state.json` is absent, (b) exits fatally with the
invalid-artifact diagnostic carrying the parser's own error detail when the
contents do not parse, and (c) for a present artifact the outcome is decided
by the parser alone — the decode-with-replacement read itself never fails. -/
theorem serverlessConfig_artifact_errors (path : String)
    (parse : String → Except String Val) (env : PackageEnv)
    (st st1 : AdapterState) (ev : List Effect)
    (hc : st.serverlessConfigCache = none)
    (hp : package path env st = (st1, ev, .ok ())) :
    (env.stateArtifact = none →
      serverlessConfig path parse env st =
        (st1, ev ++ [.openedStateArtifact (st1.serverlessPackage.getD 0),
          .eprinted "error: serverless package did not create serverless-state.json" []],
         .error (.systemExit (-1)))) ∧
    (∀ s msg, env.stateArtifact = some s → parse s = .error msg →
      serverlessConfig path parse env st =
        (st1, ev ++ [.openedStateArtifact (st1.serverlessPackage.getD 0),
          .eprinted "error: invalid serverless-state.json:\n\x7b\x7d" [msg]],
         .error (.systemExit (-1)))) ∧
    (∀ s, env.stateArtifact = some s →
      (∃ v, parse s = .ok v ∧ (serverlessConfig path parse env st).2.2 = .ok v) ∨
      (∃ msg, parse s = .error msg ∧
        (serverlessConfig path parse env st).2.2 = .error (.systemExit (-1)))) := by
  refine ⟨?_, ?_, ?_⟩
  · intro ha
    simp [serverlessConfig, hc, hp, ha]
  · intro s msg ha hps
    simp [serverlessConfig, hc, hp, ha, hps]
  · intro s ha
    cases hps : parse s with
    | ok v => exact .inl ⟨v, rfl, by simp [serverlessConfig, hc, hp, ha, hps]⟩
    | error msg => exact .inr ⟨msg, rfl, by simp [serverlessConfig, hc, hp, ha, hps]⟩

/-- Witness for C6 at the doctest scenario: an artifact holding the literal
text `invalid`, rejected by the parser with its own error message, which the
diagnostic surfaces. -/
theorem serverlessConfig_artifact_errors_witness :
    serverlessConfig "proj" (fun _ => .error "Expecting value: line 1 column 1 (char 0)")
        ⟨true, true, 0, "", 7, some "invalid"⟩ ⟨none, none⟩ =
      (⟨some 7, none⟩,
       [.checkedConfigExists "proj/serverless.yml", .createdTempDir 7,
        .invokedToolchain 7] ++
       [.openedStateArtifact ((⟨some 7, none⟩ : AdapterState).serverlessPackage.getD 0),
        .eprinted "error: invalid serverless-state.json:\n\x7b\x7d"
          ["Expecting value: line 1 column 1 (char 0)"]],
       .error (.systemExit (-1))) :=
  (serverlessConfig_artifact_errors "proj"
      (fun _ => .error "Expecting value: line 1 column 1 (char 0)")
      ⟨true, true, 0, "", 7, some "invalid"⟩ ⟨none, none⟩ ⟨some 7, none⟩
      [.checkedConfigExists "proj/serverless.yml", .createdTempDir 7, .invokedToolchain 7]
      rfl rfl).2.1
    "invalid" "Expecting value: line 1 column 1 (char 0)" rfl rfl

/-- The linear scan over a well-formed function table returns the declared
name of the first entry whose `name` attribute is the provider name. -/
theorem scanFunctions_fnTable (pfn : String) (fs : List (String × String)) :
    scanFunctions pfn (fs.map fun p => (p.1, .vobj [("name", .vstr p.2)])) =
      .ok ((fs.find? fun p => p.2 == pfn).map Prod.fst) := by
  induction fs with
  | nil => rfl
  | cons p fs ih =>
    obtain ⟨d, n⟩ := p
    by_cases h : n = pfn
    · subst h
      simp [scanFunctions, Val.subscript, dget, bind, Except.bind, pure, Except.pure,
        List.find?_cons_of_pos]
    · rw [List.map_cons, List.find?_cons_of_neg _ (by simpa using h)]
      simp [scanFunctions, Val.subscript, dget, bind, Except.bind, pure, Except.pure, h, ih]

/-- C7: with the resolved state cached as a well-formed function table,
`get_function_name` returns a declared name mapped to the queried
provider-assigned name whenever some entry carries it, and exits fatally
(`SystemExit -1`, diagnostic naming the provider name) when no entry does. -/
theorem getFunctionName_spec (path : String)
    (parse : String → Except String Val) (env : PackageEnv)
    (st : AdapterState) (fs : List (String × String)) (pfn : String)
    (hc : st.serverlessConfigCache = some (fnTable fs)) :
    ((∃ p ∈ fs, p.2 = pfn) →
      ∃ d, getFunctionName path parse env st pfn = (st, [], .ok d) ∧ (d, pfn) ∈ fs) ∧
    ((∀ p ∈ fs, p.2 ≠ pfn) →
      getFunctionName path parse env st pfn =
        (st, [.eprinted
            ("error: could not find Serverless name for function: " ++ sq ++ "\x7b\x7d" ++ sq)
            [pfn]],
         .error (.systemExit (-1)))) := by
  have hcfg : serverlessConfig path parse env st = (st, [], .ok (fnTable fs)) := by
    simp [serverlessConfig, hc]
  have hitems : (do
      let s ← (fnTable fs).subscript "service"
      let f ← s.getD "functions" (.vobj [])
      f.items) = Except.ok (fs.map fun p => (p.1, .vobj [("name", .vstr p.2)])) := by
    simp [fnTable, Val.subscript, Val.getD, Val.items, dget, bind, Except.bind]
  constructor
  · intro hex
    have hfind : ∃ q, (fs.find? fun p => p.2 == pfn) = some q := by
      rw [← Option.isSome_iff_exists]
      rw [List.find?_isSome]
      obtain ⟨p, hp, he⟩ := hex
      exact ⟨p, hp, by simpa using he⟩
    obtain ⟨q, hq⟩ := hfind
    refine ⟨q.1, ?_, ?_⟩
    · simp [getFunctionName, hcfg, hitems, scanFunctions_fnTable, hq]
    · have hmem := List.mem_of_find?_eq_some hq
      have heq : q.2 = pfn := by simpa using List.find?_some hq
      have : (q.1, pfn) = q := by
        rw [← heq]
      rw [this]
      exact hmem
  · intro hall
    have hnone : (fs.find? fun p => p.2 == pfn) = none := by
      rw [List.find?_eq_none]
      intro p hp
      simpa using hall p hp
    simp [getFunctionName, hcfg, hitems, scanFunctions_fnTable, hnone]

/-- Witness for C7 on the doctest table `{functionName: {name: function-name}}`:
the internal name resolves to the declared name, and an unknown internal
name is fatal. -/
theorem getFunctionName_spec_witness :
    (∃ d, getFunctionName "proj" (fun _ => .error "unused")
        ⟨true, true, 0, "", 7, none⟩
        ⟨none, some (fnTable [("functionName", "function-name")])⟩ "function-name"
      = (⟨none, some (fnTable [("functionName", "function-name")])⟩, [], .ok d) ∧
      (d, "function-name") ∈ [("functionName", "function-name")]) ∧
    getFunctionName "proj" (fun _ => .error "unused")
        ⟨true, true, 0, "", 7, none⟩
        ⟨none, some (fnTable [("functionName", "function-name")])⟩ "other-name"
      = (⟨none, some (fnTable [("functionName", "function-name")])⟩,
         [.eprinted
            ("error: could not find Serverless name for function: " ++ sq ++ "\x7b\x7d" ++ sq)
            ["other-name"]],
         .error (.systemExit (-1))) :=
  ⟨(getFunctionName_spec "proj" (fun _ => .error "unused") ⟨true, true, 0, "", 7, none⟩
      ⟨none, some (fnTable [("functionName", "function-name")])⟩
      [("functionName", "function-name")] "function-name" rfl).1
      ⟨("functionName", "function-name"), by simp, rfl⟩,
   (getFunctionName_spec "proj" (fun _ => .error "unused") ⟨true, true, 0, "", 7, none⟩
      ⟨none, some (fnTable [("functionName", "function-name")])⟩
      [("functionName", "function-name")] "other-name" rfl).2
      (by simp)⟩

/-- Characterization of the deletion loop's survivors: an id remains in the
resource block exactly when it was present before the loop and no entry of
`old_resources` (whose dict keys are unique) qualifies it for deletion. -/
theorem removalLoop_mem (nr : List String) :
    ∀ (olds rr rr' : List (String × Val)),
    (olds.map Prod.fst).Nodup →
    removalLoop nr olds rr = .ok rr' →
    ∀ rid, dmem rr' rid = true ↔
      (dmem rr rid = true ∧
        ∀ rc, (rid, rc) ∈ olds → ¬(qualifiesStatic rc = .ok true ∧ rid ∉ nr)) := by
  intro olds
  induction olds with
  | nil =>
    intro rr rr' _ h rid
    simp only [removalLoop, Except.ok.injEq] at h
    subst h
    simp
  | cons p rest ih =>
    obtain ⟨rid0, rc0⟩ := p
    intro rr rr' hnd h rid
    simp only [removalLoop] at h
    cases hq : qualifiesStatic rc0 with
    | error e =>
      rw [hq] at h
      simp [bind, Except.bind] at h
    | ok qv =>
      rw [hq] at h
      simp only [bind, Except.bind] at h
      have hnd0 : rid0 ∉ rest.map Prod.fst :=
        (List.nodup_cons.mp (by simpa using hnd)).1
      have hndr : (rest.map Prod.fst).Nodup :=
        (List.nodup_cons.mp (by simpa using hnd)).2
      have hmem := ih _ rr' hndr h rid
      rw [hmem]
      by_cases hr : rid = rid0
      · subst hr
        have hnone : ∀ rc, (rid, rc) ∈ rest → False := fun rc hm =>
          hnd0 (List.mem_map.mpr ⟨(rid, rc), hm, rfl⟩)
        have htriv : ∀ rc, (rid, rc) ∈ rest →
            ¬(qualifiesStatic rc = .ok true ∧ rid ∉ nr) :=
          fun rc hm => (hnone rc hm).elim
        have hhead : (∀ rc, (rid, rc) ∈ (rid, rc0) :: rest →
            ¬(qualifiesStatic rc = .ok true ∧ rid ∉ nr)) ↔
            ¬(qualifiesStatic rc0 = .ok true ∧ rid ∉ nr) := by
          constructor
          · intro hall
            exact hall rc0 (List.mem_cons_self _ _)
          · intro hone rc hm
            rcases List.mem_cons.mp hm with heq | hm2
            · rw [(Prod.mk.injEq _ _ _ _ |>.mp heq).2]
              exact hone
            · exact (hnone rc hm2).elim
        rw [hhead]
        cases hqv : qv <;> cases hct : nr.contains rid <;>
          cases hdm : dmem rr rid <;>
          simp_all [dmem_ddel, hq]
      · have h1 : dmem (if qv && !nr.contains rid0 && dmem rr rid0 then
            ddel rr rid0 else rr) rid = dmem rr rid := by
          by_cases hcond : (qv && !nr.contains rid0 && dmem rr rid0) = true
          · rw [if_pos hcond, dmem_ddel]
            simp [bne_iff_ne, hr]
          · rw [if_neg hcond]
        have h2 : (∀ rc, (rid, rc) ∈ (rid0, rc0) :: rest →
            ¬(qualifiesStatic rc = .ok true ∧ rid ∉ nr)) ↔
            (∀ rc, (rid, rc) ∈ rest →
              ¬(qualifiesStatic rc = .ok true ∧ rid ∉ nr)) := by
          constructor
          · intro hall rc hm
            exact hall rc (List.mem_cons_of_mem _ hm)
          · intro hall rc hm
            rcases List.mem_cons.mp hm with heq | hm2
            · exact absurd (Prod.mk.injEq _ _ _ _ |>.mp heq).1 hr
            · exact hall rc hm2
        rw [h1, h2]

/-- C2: during legacy-role removal, a resource of the pre-packaging resolved
state's resource block is deleted from the current block exactly when its
`Type` is `AWS::IAM::Role`, the string form of its
`Properties.AssumeRolePolicyDocument` contains `lambda.amazonaws.com`, its id
is not a newly synthesized role name, and its id is present in the current
block; concretely, a confirmed run against a manifest with such an `OldRole`
writes a manifest in which `puresecHelloRole` is present and `OldRole` is
gone. -/
theorem legacy_removal_spec :
    (∀ (nr : List String) (olds rr rr' : List (String × Val)),
      (olds.map Prod.fst).Nodup →
      removalLoop nr olds rr = .ok rr' →
      ∀ rid, (dmem rr rid = true ∧ dmem rr' rid = false) ↔
        (∃ rc, (rid, rc) ∈ olds ∧ qualifiesStatic rc = .ok true ∧ rid ∉ nr ∧
          dmem rr rid = true)) ∧
    (∃ w, result ["hello"]
      (.vobj [("service", .vobj [("resources", .vobj [("Resources", .vobj [("OldRole",
        .vobj [("Type", .vstr "AWS::IAM::Role"),
               ("Properties", .vobj [("AssumeRolePolicyDocument",
                 .vobj [("Service", .vstr "lambda.amazonaws.com")])])])])])])])
      (.vobj [("functions", .vobj [("hello", .vobj [])]),
              ("resources", .vobj [("Resources", .vobj [("OldRole",
        .vobj [("Type", .vstr "AWS::IAM::Role"),
               ("Properties", .vobj [("AssumeRolePolicyDocument",
                 .vobj [("Service", .vstr "lambda.amazonaws.com")])])])])])])
      true false true true true true
      = ([.wroteRolesFile, .readManifest, .wroteManifest w], .ok ())
      ∧ getPath w ["resources", "Resources", "puresecHelloRole"]
          = some (.vstr "$\x7bself:custom.puresec_roles.PureSecHelloRole\x7d")
      ∧ getPath w ["resources", "Resources", "OldRole"] = none) := by
  constructor
  · intro nr olds rr rr' hnd h rid
    have hm := removalLoop_mem nr olds rr rr' hnd h rid
    constructor
    · rintro ⟨h1, h2⟩
      have hne : ¬(dmem rr' rid = true) := by simp [h2]
      rw [hm] at hne
      push_neg at hne
      obtain ⟨rc, hrc, hq, hnin⟩ := hne h1
      exact ⟨rc, hrc, hq, hnin, h1⟩
    · rintro ⟨rc, hmem, hq, hnin, h1⟩
      refine ⟨h1, ?_⟩
      by_contra hne
      have ht : dmem rr' rid = true := by
        cases hv : dmem rr' rid
        · exact absurd hv hne
        · rfl
      rw [hm] at ht
      exact ht.2 rc hmem ⟨hq, hnin⟩
  · exact ⟨.vobj [("functions", .vobj [("hello", .vobj [("role", .vstr "puresecHelloRole")])]),
      ("resources", .vobj [("Resources", .vobj [("puresecHelloRole",
        .vstr "$\x7bself:custom.puresec_roles.PureSecHelloRole\x7d")])]),
      ("custom", .vobj [("puresec_roles", .vstr "$\x7bfile(puresec-roles.yml)\x7d")])],
      rfl, rfl, rfl⟩

/-- Witness for C2 at a concrete loop run: `OldRole` qualifies and is
deleted, while the id in the new-roles set is untouched. -/
theorem legacy_removal_spec_witness :
    (dmem [("OldRole", .vobj [("Type", .vstr "AWS::IAM::Role"),
        ("Properties", .vobj [("AssumeRolePolicyDocument",
          .vobj [("Service", .vstr "lambda.amazonaws.com")])])]),
       ("puresecHelloRole", .vstr "x")] "OldRole" = true ∧
     dmem [("puresecHelloRole", Val.vstr "x")] "OldRole" = false) ↔
    (∃ rc, ("OldRole", rc) ∈ [("OldRole", Val.vobj [("Type", .vstr "AWS::IAM::Role"),
        ("Properties", .vobj [("AssumeRolePolicyDocument",
          .vobj [("Service", .vstr "lambda.amazonaws.com")])])])] ∧
      qualifiesStatic rc = .ok true ∧ "OldRole" ∉ ["puresecHelloRole"] ∧
      dmem [("OldRole", .vobj [("Type", .vstr "AWS::IAM::Role"),
        ("Properties", .vobj [("AssumeRolePolicyDocument",
          .vobj [("Service", .vstr "lambda.amazonaws.com")])])]),
       ("puresecHelloRole", .vstr "x")] "OldRole" = true) :=
  legacy_removal_spec.1 ["puresecHelloRole"]
    [("OldRole", .vobj [("Type", .vstr "AWS::IAM::Role"),
        ("Properties", .vobj [("AssumeRolePolicyDocument",
          .vobj [("Service", .vstr "lambda.amazonaws.com")])])])]
    [("OldRole", .vobj [("Type", .vstr "AWS::IAM::Role"),
        ("Properties", .vobj [("AssumeRolePolicyDocument",
          .vobj [("Service", .vstr "lambda.amazonaws.com")])])]),
     ("puresecHelloRole", .vstr "x")]
    [("puresecHelloRole", .vstr "x")]
    (by simp) rfl "OldRole"

/-- Every event emitted inside the remove-old-roles stage is a prompt. -/
theorem stageRemove_events (sls : Val) (nr : List String) (config : Val)
    (yes ansSure : Bool) :
    ∀ e ∈ (stageRemove sls nr config yes ansSure).1, isPrompt e = true := by
  intro e he
  unfold stageRemove at he
  repeat' split at he
  all_goals simp_all [isPrompt]

/-- With the unattended flag set, the remove-old-roles stage asks nothing. -/
theorem stageRemove_yes_events (sls : Val) (nr : List String) (config : Val)
    (ansSure : Bool) :
    (stageRemove sls nr config true ansSure).1 = [] := by
  unfold stageRemove
  repeat' split
  all_goals simp_all

/-- Every event emitted inside the reconcile pipeline is a prompt. -/
theorem reconcile_events (perms : List String) (sls config : Val)
    (yes aRef aRem aS : Bool) :
    ∀ e ∈ (reconcile perms sls config yes aRef aRem aS).1, isPrompt e = true := by
  intro e he
  have hpr : ∀ (b : Bool) (f : String) (a : List String),
      e ∈ (if b then ([] : List Event) else [.prompted f a]) → isPrompt e = true := by
    intro b f a hm
    cases b <;> simp_all [isPrompt]
  have hrem : ∀ (c2 : Val) (remEv2 : List Event) (r : Except PyErr Val),
      (if yes || aRem then stageRemove sls (newRolesOf perms) c2 yes aS
       else ([], .ok c2)) = (remEv2, r) → e ∈ remEv2 → isPrompt e = true := by
    intro c2 remEv2 r hC hm
    by_cases hca : (yes || aRem) = true
    · rw [if_pos hca] at hC
      refine stageRemove_events sls (newRolesOf perms) c2 yes aS e ?_
      rw [hC]
      exact hm
    · rw [if_neg hca] at hC
      simp only [Prod.mk.injEq] at hC
      rw [← hC.1] at hm
      simp at hm
  unfold reconcile at he
  split at he
  · simp at he
  · split at he
    · exact hpr yes qReference [] he
    · split at he
      · rename_i hC
        simp only [List.append_assoc, List.mem_append] at he
        rcases he with he | he | he
        · exact hpr yes qReference [] he
        · exact hpr yes qRemove [] he
        · exact hrem _ _ _ hC he
      · rename_i hC
        split at he <;>
        · simp only [List.append_assoc, List.mem_append] at he
          rcases he with he | he | he
          · exact hpr yes qReference [] he
          · exact hpr yes qRemove [] he
          · exact hrem _ _ _ hC he

/-- With the unattended flag set, the reconcile pipeline asks nothing. -/
theorem reconcile_yes_events (perms : List String) (sls config : Val)
    (aRef aRem aS : Bool) :
    (reconcile perms sls config true aRef aRem aS).1 = [] := by
  unfold reconcile
  split
  · rfl
  · split
    · rfl
    · split
      · rename_i hC
        rw [if_pos (by simp)] at hC
        have h2 := congrArg Prod.fst hC
        simp only [stageRemove_yes_events] at h2
        simp [← h2]
      · rename_i hC
        rw [if_pos (by simp)] at hC
        have h2 := congrArg Prod.fst hC
        simp only [stageRemove_yes_events] at h2
        split <;> simp [← h2]

/-- Inversion: a written manifest comes out of the reconcile pipeline's
final `cleanup`. -/
theorem reconcile_ok_inv (perms : List String) (sls config : Val)
    (yes aRef aRem aS : Bool) (ev : List Event) (w : Val)
    (h : reconcile perms sls config yes aRef aRem aS = (ev, .ok w)) :
    ∃ c1 c2 c3, stageAdd perms config = .ok c1 ∧
      (if yes || aRef then setFunctionRoles perms c1 else .ok c1) = .ok c2 ∧
      (if yes || aRem then stageRemove sls (newRolesOf perms) c2 yes aS
       else ([], .ok c2)).2 = .ok c3 ∧
      cleanup c3 = .ok w := by
  unfold reconcile at h
  split at h
  · simp at h
  · rename_i c1 hA
    split at h
    · simp at h
    · rename_i c2 hB
      split at h
      · simp at h
      · rename_i remEv2 c3 hC
        split at h
        · simp at h
        · rename_i w2 hD
          refine ⟨c1, c2, c3, hA, hB, by rw [hC], ?_⟩
          rw [hD]
          simp only [Prod.mk.injEq, Except.ok.injEq] at h
          rw [h.2]

/-- Inversion: a `wroteManifest` event in `result`'s trace pins down a
successful reconcile pipeline producing exactly that manifest. -/
theorem result_wroteManifest_inv (perms : List String) (sls config : Val)
    (yes rfe aO aRef aRem aS : Bool) (c : Val)
    (h : Event.wroteManifest c ∈
      (result perms sls config yes rfe aO aRef aRem aS).1) :
    ∃ ev, reconcile perms sls config yes aRef aRem aS = (ev, .ok c) := by
  have hprompts := reconcile_events perms sls config yes aRef aRem aS
  unfold result at h
  by_cases hp : perms.isEmpty
  · rw [if_pos hp] at h; simp at h
  · rw [if_neg hp] at h
    by_cases hg : (!yes && rfe && !aO) = true
    · rw [if_pos hg] at h
      exfalso
      revert h
      split <;> simp
    · rw [if_neg hg] at h
      rcases hR : reconcile perms sls config yes aRef aRem aS with ⟨ev, r⟩
      rw [hR] at hprompts
      cases r with
      | error e =>
        rw [hR] at h
        exfalso
        rcases List.mem_append.mp h with h1 | h1
        · rcases List.mem_append.mp h1 with h2 | h2
          · revert h2; split <;> simp
          · simp at h2
        · exact absurd (hprompts _ h1) (by simp [isPrompt])
      | ok w =>
        rw [hR] at h
        have hcw : c = w := by
          rcases List.mem_append.mp h with h1 | h1
          · exfalso
            rcases List.mem_append.mp h1 with h2 | h2
            · rcases List.mem_append.mp h2 with h3 | h3
              · revert h3; split <;> simp
              · simp at h3
            · exact absurd (hprompts _ h2) (by simp [isPrompt])
          · simpa using h1
        exact ⟨ev, by rw [hcw]⟩

/-- C8: with a permissions mapping to write, an interactive run against an
existing roles file whose overwrite prompt is declined stops with
`SystemExit 1` having asked only that one question — no roles-file write, no
manifest read, mutation or write; with the unattended flag set the run's
first action is overwriting the roles file, and no prompt is ever asked. -/
theorem result_overwrite_gate (perms : List String) (sls config : Val)
    (rfe aO aRef aRem aS : Bool) (hne : perms ≠ []) :
    result perms sls config false true false aRef aRem aS
      = ([.prompted qOverwrite []], .error (.systemExit 1)) ∧
    ((result perms sls config true rfe aO aRef aRem aS).1.head?
        = some .wroteRolesFile ∧
      ∀ f a, Event.prompted f a ∉
        (result perms sls config true rfe aO aRef aRem aS).1) := by
  have hpe : perms.isEmpty = false := by
    cases perms with
    | nil => exact absurd rfl hne
    | cons a l => rfl
  refine ⟨?_, ?_, ?_⟩
  · simp [result, hpe]
  · rw [result, if_neg (by simp [hpe]), if_neg (by simp)]
    rcases hR : reconcile perms sls config true aRef aRem aS with ⟨ev, r⟩
    have hev : ev = [] := by
      have := reconcile_yes_events perms sls config aRef aRem aS
      rw [hR] at this
      exact this
    subst hev
    cases r <;> simp
  · intro f a
    rw [result, if_neg (by simp [hpe]), if_neg (by simp)]
    rcases hR : reconcile perms sls config true aRef aRem aS with ⟨ev, r⟩
    have hev : ev = [] := by
      have := reconcile_yes_events perms sls config aRef aRem aS
      rw [hR] at this
      exact this
    subst hev
    cases r <;> simp

/-- Witness for C8 at a concrete one-function mapping. -/
theorem result_overwrite_gate_witness :
    result ["hello"] (.vobj []) (.vobj []) false true false true false false
      = ([.prompted qOverwrite []], .error (.systemExit 1)) ∧
    ((result ["hello"] (.vobj []) (.vobj []) true true false true false false).1.head?
        = some .wroteRolesFile ∧
      ∀ f a, Event.prompted f a ∉
        (result ["hello"] (.vobj []) (.vobj []) true true false true false false).1) :=
  result_overwrite_gate ["hello"] (.vobj []) (.vobj []) true false true false false
    (by simp)

/-- C9: if after all reconciliation mutations the resource block
`resources.Resources` is empty, the cleanup step removes the whole
`resources` key, so it is absent from the written-back manifest; and every
manifest `result` writes is exactly such a cleanup output. -/
theorem cleanup_empty_resources :
    (∀ (kvs rs : List (String × Val)) (w : Val),
      dget kvs "resources" = some (.vobj rs) →
      dget rs "Resources" = some (.vobj []) →
      cleanup (.vobj kvs) = .ok w → topMem w "resources" = false) ∧
    (∀ (perms : List String) (sls config : Val) (yes rfe aO aRef aRem aS : Bool)
        (c : Val),
      Event.wroteManifest c ∈ (result perms sls config yes rfe aO aRef aRem aS).1 →
      ∃ pre, cleanup pre = .ok c) := by
  constructor
  · intro kvs rs w h1 h2 hcl
    simp only [cleanup, Val.subscript, h1, h2, bind, Except.bind, pyTruthy, topMem,
      Val.delItem, dmem, h1, Option.isSome_some, List.isEmpty_nil, Bool.not_true,
      Bool.not_false, Bool.true_and, if_true, Except.ok.injEq] at hcl
    rw [← hcl]
    simp [topMem, dmem, dget_ddel_self]
  · intro perms sls config yes rfe aO aRef aRem aS c h
    obtain ⟨ev, hR⟩ :=
      result_wroteManifest_inv perms sls config yes rfe aO aRef aRem aS c h
    obtain ⟨c1, c2, c3, _, _, _, hD⟩ :=
      reconcile_ok_inv perms sls config yes aRef aRem aS ev c hR
    exact ⟨c3, hD⟩

/-- Witness for C9: a manifest whose only content is an empty resource block
comes out of cleanup with no `resources` key at all. -/
theorem cleanup_empty_resources_witness :
    topMem (.vobj []) "resources" = false :=
  cleanup_empty_resources.1 [("resources", .vobj [("Resources", .vobj [])])]
    [("Resources", .vobj [])] (.vobj []) rfl rfl rfl

/-- A successful `new_resources[k] = v` write: the resource block existed
before and afterwards equals its update at `k`. -/
theorem setResourceEntry_ok (c : Val) (k : String) (v : Val) (c1 : Val)
    (h : setResourceEntry c k v = .ok c1) :
    ∃ rr, resourcesList c = some rr ∧ resourcesList c1 = some (dset rr k v) := by
  obtain ⟨res, h1, h2⟩ := bind_ok _ _ _ h
  obtain ⟨rr, h3, h4⟩ := bind_ok _ _ _ h2
  obtain ⟨rr1, h5, h6⟩ := bind_ok _ _ _ h4
  obtain ⟨res1, h7, h8⟩ := bind_ok _ _ _ h6
  obtain ⟨kvs, hc, hd1⟩ := subscript_ok _ _ _ h1
  obtain ⟨rs, hres, hd2⟩ := subscript_ok _ _ _ h3
  obtain ⟨rrl, hrrv, hrr1⟩ := setItem_ok _ _ _ _ h5
  obtain ⟨rs2, hres2, hres1⟩ := setItem_ok _ _ _ _ h7
  obtain ⟨kvs2, hc2, hc1⟩ := setItem_ok _ _ _ _ h8
  rw [hres] at hres2
  rw [hc] at hc2
  injection hres2 with hres2
  injection hc2 with hc2
  subst hres2
  subst hc2
  refine ⟨rrl, ?_, ?_⟩
  · rw [hc]
    simp [resourcesList, getPath, hd1, hres, hd2, hrrv]
  · rw [hc1, hres1, hrr1]
    simp [resourcesList, getPath, dget_dset_self]

/-- The role-adding loop preserves existing membership in the resource
block. -/
theorem addRoles_pres (names : List String) (c c1 : Val)
    (h : addRoles names c = .ok c1) (k : String)
    (hk : ∃ rr, resourcesList c = some rr ∧ dmem rr k = true) :
    ∃ rr, resourcesList c1 = some rr ∧ dmem rr k = true := by
  induction names generalizing c with
  | nil =>
    simp only [addRoles, Except.ok.injEq] at h
    rw [← h]
    exact hk
  | cons n rest ih =>
    simp only [addRoles] at h
    obtain ⟨cm, hs, h2⟩ := bind_ok _ _ _ h
    obtain ⟨rr1, g1, g2⟩ := setResourceEntry_ok c _ _ cm hs
    obtain ⟨rr0, hk1, hk2⟩ := hk
    rw [hk1] at g1
    injection g1 with g1
    subst g1
    exact ih cm h2 ⟨dset rr0 (roleName n) (.vstr (roleRef n)), g2,
      by rw [dmem_dset]; simp [hk2]⟩

/-- After the role-adding loop, every processed name's synthesized role is a
member of the resource block. -/
theorem addRoles_mem (names : List String) (c c1 : Val)
    (h : addRoles names c = .ok c1) :
    ∀ n ∈ names, ∃ rr, resourcesList c1 = some rr ∧
      dmem rr (roleName n) = true := by
  induction names generalizing c with
  | nil => intro n hn; simp at hn
  | cons m rest ih =>
    intro n hn
    simp only [addRoles] at h
    obtain ⟨cm, hs, h2⟩ := bind_ok _ _ _ h
    rcases List.mem_cons.mp hn with heq | hn2
    · subst heq
      obtain ⟨rr1, g1, g2⟩ := setResourceEntry_ok c _ _ cm hs
      exact addRoles_pres rest cm c1 h2 (roleName n)
        ⟨dset rr1 (roleName n) (.vstr (roleRef n)), g2, by rw [dmem_dset]; simp⟩
    · exact ih cm h2 n hn2

/-- The function-rewiring loop never touches the resource block. -/
theorem setFunctionRoles_pres (names : List String) (c c1 : Val)
    (h : setFunctionRoles names c = .ok c1) :
    resourcesList c1 = resourcesList c := by
  induction names generalizing c with
  | nil =>
    simp only [setFunctionRoles, Except.ok.injEq] at h
    rw [h]
  | cons n rest ih =>
    simp only [setFunctionRoles] at h
    obtain ⟨fs, h1, h2⟩ := bind_ok _ _ _ h
    obtain ⟨fc, h3, h4⟩ := bind_ok _ _ _ h2
    obtain ⟨fc1, h5, h6⟩ := bind_ok _ _ _ h4
    obtain ⟨fs1, h7, h8⟩ := bind_ok _ _ _ h6
    obtain ⟨cm, h9, h10⟩ := bind_ok _ _ _ h8
    obtain ⟨kvs, hc, hd1⟩ := subscript_ok _ _ _ h1
    obtain ⟨kvs2, hc2, hcm⟩ := setItem_ok _ _ _ _ h9
    rw [hc] at hc2
    injection hc2 with hc2
    subst hc2
    rw [ih cm h10, hcm, hc]
    simp [resourcesList, getPath,
      dget_dset_ne kvs "functions" "resources" _ (by decide)]

/-- Deleting the blanket `iamRoleStatements` declaration never touches the
resource block. -/
theorem delIam_pres (c c1 : Val) (h : delIamRoleStatements c = .ok c1) :
    resourcesList c1 = resourcesList c := by
  unfold delIamRoleStatements at h
  obtain ⟨provider, h1, h2⟩ := bind_ok _ _ _ h
  obtain ⟨hasIam, h3, h4⟩ := bind_ok _ _ _ h2
  cases hasIam with
  | false =>
    simp only [Bool.false_eq_true, if_neg, ite_false, pure, Except.pure,
      Except.ok.injEq] at h4
    rw [h4]
  | true =>
    simp only [if_pos rfl, ite_true] at h4
    obtain ⟨p, h5, h6⟩ := bind_ok _ _ _ h4
    obtain ⟨p1, h7, h8⟩ := bind_ok _ _ _ h6
    obtain ⟨kvs, hc, hc1⟩ := setItem_ok _ _ _ _ h8
    rw [hc1, hc]
    simp [resourcesList, getPath,
      dget_dset_ne kvs "provider" "resources" _ (by decide)]

/-- The deletion loop through the alias: the block existed, the loop ran on
it, and the block afterwards is the loop's output. -/
theorem removalLoopCfg_ok (nr : List String) (olds : List (String × Val))
    (c c1 : Val) (h : removalLoopCfg nr olds c = .ok c1) :
    ∃ rr rr1, resourcesList c = some rr ∧ removalLoop nr olds rr = .ok rr1 ∧
      resourcesList c1 = some rr1 := by
  unfold removalLoopCfg at h
  obtain ⟨rr, h1, h2⟩ := bind_ok _ _ _ h
  obtain ⟨rr1, h3, h4⟩ := bind_ok _ _ _ h2
  obtain ⟨res, h5, h6⟩ := bind_ok _ _ _ h4
  obtain ⟨res1, h7, h8⟩ := bind_ok _ _ _ h6
  unfold configResourcesList at h1
  obtain ⟨res0, g1, g2⟩ := bind_ok _ _ _ h1
  obtain ⟨rrv, g3, g4⟩ := bind_ok _ _ _ g2
  obtain ⟨kvs, hc, hd1⟩ := subscript_ok _ _ _ g1
  obtain ⟨rs, hres0, hd2⟩ := subscript_ok _ _ _ g3
  have hrrv := items_ok _ _ g4
  obtain ⟨rs2, hres2, hres1⟩ := setItem_ok _ _ _ _ h7
  obtain ⟨kvs2, hc2, hc1⟩ := setItem_ok _ _ _ _ h8
  obtain ⟨kvs3, hc3, hd3⟩ := subscript_ok _ _ _ h5
  rw [hc] at hc2 hc3
  injection hc2 with hc2
  injection hc3 with hc3
  subst hc2
  subst hc3
  rw [hd1] at hd3
  injection hd3 with hd3
  rw [← hd3, hres0] at hres2
  injection hres2 with hres2
  subst hres2
  refine ⟨rr, rr1, ?_, h3, ?_⟩
  · rw [hc]
    simp [resourcesList, getPath, hd1, hres0, hd2, hrrv]
  · rw [hc1, hres1]
    simp [resourcesList, getPath, dget_dset_self]

/-- The deletion loop never removes an id from the new-roles set. -/
theorem removalLoop_keeps (nr : List String) (k : String)
    (hcont : nr.contains k = true) :
    ∀ (olds : List (String × Val)) (rr rr1 : List (String × Val)),
    removalLoop nr olds rr = .ok rr1 → dmem rr1 k = dmem rr k := by
  intro olds
  induction olds with
  | nil =>
    intro rr rr1 h
    simp only [removalLoop, Except.ok.injEq] at h
    rw [h]
  | cons p rest ih =>
    obtain ⟨rid0, rc0⟩ := p
    intro rr rr1 h
    simp only [removalLoop] at h
    obtain ⟨q, hq, h2⟩ := bind_ok _ _ _ h
    rw [ih _ _ h2]
    by_cases hcond : (q && !nr.contains rid0 && dmem rr rid0) = true
    · rw [if_pos hcond, dmem_ddel]
      have hne : rid0 ≠ k := by
        intro heq
        subst heq
        rw [hcont] at hcond
        simp at hcond
      simp [bne_iff_ne, Ne.symm hne]
    · rw [if_neg hcond]

/-- The whole remove-old-roles stage keeps every id of the new-roles set
that was in the resource block. -/
theorem stageRemove_pres (sls : Val) (nr : List String) (c2 : Val)
    (yes aS : Bool) (ev : List Event) (c3 : Val)
    (h : stageRemove sls nr c2 yes aS = (ev, .ok c3)) (k : String)
    (hcont : nr.contains k = true)
    (hk : ∃ rr, resourcesList c2 = some rr ∧ dmem rr k = true) :
    ∃ rr, resourcesList c3 = some rr ∧ dmem rr k = true := by
  unfold stageRemove at h
  split at h
  · simp at h
  · split at h
    · simp at h
    · split at h
      · simp at h
      · split at h
        · simp at h
        · rename_i x4 olds heq3 x3 hasIam heq2 x2 rrv heq1 x1 cands heq0
          have core : ∀ (P : List Event),
              (if (yes || aS) = true then
                (match (do
                    let c1 ← delIamRoleStatements c2
                    removalLoopCfg nr olds c1) with
                 | .error e => (P, Except.error e)
                 | .ok cdel => (P, Except.ok cdel))
               else (P, Except.ok c2)) = (ev, .ok c3) →
              ∃ rr, resourcesList c3 = some rr ∧ dmem rr k = true := by
            intro P hX
            by_cases hsure : (yes || aS) = true
            · rw [if_pos hsure] at hX
              cases hDel : (do
                  let c1 ← delIamRoleStatements c2
                  removalLoopCfg nr olds c1) with
              | error e =>
                rw [hDel] at hX
                have hX3 : (P, (Except.error e : Except PyErr Val))
                    = (ev, Except.ok c3) := hX
                simp at hX3
              | ok cdel =>
                rw [hDel] at hX
                have hX3 : (P, (Except.ok cdel : Except PyErr Val))
                    = (ev, Except.ok c3) := hX
                simp only [Prod.mk.injEq, Except.ok.injEq] at hX3
                rw [← hX3.2]
                obtain ⟨cmid, hd1, hd2⟩ := bind_ok _ _ _ hDel
                obtain ⟨rr0, hk1, hk2⟩ := hk
                obtain ⟨rra, rrb, g1, g2, g3⟩ := removalLoopCfg_ok _ _ _ _ hd2
                rw [delIam_pres _ _ hd1, hk1] at g1
                injection g1 with g1
                subst g1
                refine ⟨rrb, g3, ?_⟩
                rw [removalLoop_keeps nr k hcont _ _ _ g2]
                exact hk2
            · rw [if_neg hsure] at hX
              simp only [Prod.mk.injEq, Except.ok.injEq] at hX
              rw [← hX.2]
              exact hk
          cases hasIam with
          | true =>
            rw [if_neg (by simp)] at h
            exact core _ h
          | false =>
            cases cands with
            | nil =>
              rw [if_pos (by simp)] at h
              simp only [Prod.mk.injEq, Except.ok.injEq] at h
              rw [← h.2]
              exact hk
            | cons a l =>
              rw [if_neg (by simp)] at h
              exact core _ h

/-- Cleanup is the identity on a manifest whose resource block has a
member. -/
theorem cleanup_ok_of_mem (c : Val) (rr : List (String × Val)) (k : String)
    (hres : resourcesList c = some rr) (hk : dmem rr k = true) :
    cleanup c = .ok c := by
  cases c with
  | vobj kvs =>
    cases hd1 : dget kvs "resources" with
    | none => simp [resourcesList, getPath, hd1] at hres
    | some res =>
      cases res with
      | vobj rs =>
        cases hd2 : dget rs "Resources" with
        | none => simp [resourcesList, getPath, hd1, hd2] at hres
        | some rrv =>
          cases rrv with
          | vobj rrl =>
            have hrl : rrl = rr := by
              simpa [resourcesList, getPath, hd1, hd2] using hres
            subst hrl
            have hne : rrl.isEmpty = false := by
              cases rrl with
              | nil => simp [dmem, dget] at hk
              | cons a l => rfl
            simp [cleanup, Val.subscript, hd1, hd2, bind, Except.bind, pyTruthy, hne,
              pure, Except.pure]
          | vnull => simp [resourcesList, getPath, hd1, hd2] at hres
          | vbool b => simp [resourcesList, getPath, hd1, hd2] at hres
          | vint n => simp [resourcesList, getPath, hd1, hd2] at hres
          | vstr s => simp [resourcesList, getPath, hd1, hd2] at hres
          | vlist xs => simp [resourcesList, getPath, hd1, hd2] at hres
      | vnull => simp [resourcesList, getPath, hd1] at hres
      | vbool b => simp [resourcesList, getPath, hd1] at hres
      | vint n => simp [resourcesList, getPath, hd1] at hres
      | vstr s => simp [resourcesList, getPath, hd1] at hres
      | vlist xs => simp [resourcesList, getPath, hd1] at hres
  | vnull => simp [resourcesList, getPath] at hres
  | vbool b => simp [resourcesList, getPath] at hres
  | vint n => simp [resourcesList, getPath] at hres
  | vstr s => simp [resourcesList, getPath] at hres
  | vlist xs => simp [resourcesList, getPath] at hres

/-- A manifest with a resource block has the `resources` key. -/
theorem resourcesList_topMem (c : Val) (rr : List (String × Val))
    (h : resourcesList c = some rr) : topMem c "resources" = true := by
  cases c with
  | vobj kvs =>
    cases hd1 : dget kvs "resources" with
    | none => simp [resourcesList, getPath, hd1] at h
    | some res => simp [topMem, dmem, hd1]
  | vnull => simp [resourcesList, getPath] at h
  | vbool b => simp [resourcesList, getPath] at h
  | vint n => simp [resourcesList, getPath] at h
  | vstr s => simp [resourcesList, getPath] at h
  | vlist xs => simp [resourcesList, getPath] at h

/-- A successful reconcile pipeline leaves every synthesized role in the
written manifest's resource block. -/
theorem reconcile_ok_roles (perms : List String) (sls config : Val)
    (yes aRef aRem aS : Bool) (ev : List Event) (w : Val)
    (h : reconcile perms sls config yes aRef aRem aS = (ev, .ok w)) :
    ∀ n ∈ perms, ∃ rr, resourcesList w = some rr ∧
      dmem rr (roleName n) = true := by
  intro n hn
  obtain ⟨c1, c2, c3, hA, hB, hC, hD⟩ :=
    reconcile_ok_inv perms sls config yes aRef aRem aS ev w h
  unfold stageAdd at hA
  obtain ⟨ca, g1, g2⟩ := bind_ok _ _ _ hA
  obtain ⟨cb, g3, g4⟩ := bind_ok _ _ _ g2
  have hk1 := addRoles_mem perms cb c1 g4 n hn
  have hk2 : ∃ rr, resourcesList c2 = some rr ∧ dmem rr (roleName n) = true := by
    by_cases hbr : (yes || aRef) = true
    · rw [if_pos hbr] at hB
      obtain ⟨rr, hr1, hr2⟩ := hk1
      refine ⟨rr, ?_, hr2⟩
      rw [setFunctionRoles_pres perms c1 c2 hB]
      exact hr1
    · rw [if_neg hbr] at hB
      injection hB with hB
      rw [← hB]
      exact hk1
  have hk3 : ∃ rr, resourcesList c3 = some rr ∧ dmem rr (roleName n) = true := by
    by_cases hbr : (yes || aRem) = true
    · rw [if_pos hbr] at hC
      rcases hSR : stageRemove sls (newRolesOf perms) c2 yes aS with ⟨ev2, r⟩
      rw [hSR] at hC
      have hr : r = .ok c3 := hC
      rw [hr] at hSR
      refine stageRemove_pres sls (newRolesOf perms) c2 yes aS ev2 c3 hSR
        (roleName n) ?_ hk2
      have : roleName n ∈ newRolesOf perms := List.mem_map.mpr ⟨n, hn, rfl⟩
      simpa using this
    · rw [if_neg hbr] at hC
      have hcc : Except.ok c2 = Except.ok c3 := hC
      injection hcc with hcc
      rw [← hcc]
      exact hk2
  obtain ⟨rr, hr1, hr2⟩ := hk3
  have hcl := cleanup_ok_of_mem c3 rr (roleName n) hr1 hr2
  rw [hcl] at hD
  injection hD with hD
  rw [← hD]
  exact ⟨rr, hr1, hr2⟩

/-- C10: on a non-empty permissions mapping, every manifest `result` writes
still contains the synthesized role entry of every function in the mapping —
new entries are added before removal and the deletion loop spares the
new-roles set — so the resource block is non-empty and the `resources` key
survives (the empty-resources cleanup branch never fires in such a run). -/
theorem result_nonempty_keeps_roles (perms : List String) (sls config : Val)
    (yes rfe aO aRef aRem aS : Bool) (c : Val) (hne : perms ≠ [])
    (h : Event.wroteManifest c ∈
      (result perms sls config yes rfe aO aRef aRem aS).1) :
    (∀ n ∈ perms, ∃ rr, resourcesList c = some rr ∧
      dmem rr (roleName n) = true) ∧
    topMem c "resources" = true := by
  obtain ⟨ev, hR⟩ :=
    result_wroteManifest_inv perms sls config yes rfe aO aRef aRem aS c h
  have hroles := reconcile_ok_roles perms sls config yes aRef aRem aS ev c hR
  refine ⟨hroles, ?_⟩
  obtain ⟨n, hn⟩ : ∃ n, n ∈ perms := by
    cases perms with
    | nil => exact absurd rfl hne
    | cons a l => exact ⟨a, List.mem_cons_self a l⟩
  obtain ⟨rr, h1, h2⟩ := hroles n hn
  exact resourcesList_topMem c rr h1

/-- Witness for C10 at the concrete one-function reconciliation run. -/
theorem result_nonempty_keeps_roles_witness :
    (∀ n ∈ ["hello"], ∃ rr,
      resourcesList (.vobj [("functions", .vobj [("hello",
          .vobj [("role", .vstr "puresecHelloRole")])]),
        ("resources", .vobj [("Resources", .vobj [("puresecHelloRole",
          .vstr "$\x7bself:custom.puresec_roles.PureSecHelloRole\x7d")])]),
        ("custom", .vobj [("puresec_roles",
          .vstr "$\x7bfile(puresec-roles.yml)\x7d")])]) = some rr ∧
      dmem rr (roleName n) = true) ∧
    topMem (.vobj [("functions", .vobj [("hello",
        .vobj [("role", .vstr "puresecHelloRole")])]),
      ("resources", .vobj [("Resources", .vobj [("puresecHelloRole",
        .vstr "$\x7bself:custom.puresec_roles.PureSecHelloRole\x7d")])]),
      ("custom", .vobj [("puresec_roles",
        .vstr "$\x7bfile(puresec-roles.yml)\x7d")])]) "resources" = true :=
  result_nonempty_keeps_roles ["hello"] (.vobj [("service", .vobj [])])
    (.vobj [("functions", .vobj [("hello", .vobj [])])])
    false false true true false false
    (.vobj [("functions", .vobj [("hello",
        .vobj [("role", .vstr "puresecHelloRole")])]),
      ("resources", .vobj [("Resources", .vobj [("puresecHelloRole",
        .vstr "$\x7bself:custom.puresec_roles.PureSecHelloRole\x7d")])]),
      ("custom", .vobj [("puresec_roles",
        .vstr "$\x7bfile(puresec-roles.yml)\x7d")])])
    (by simp)
    (.tail _ (.tail _ (.tail _ (.tail _ (.head _)))))

end Puresec
